import Mathlib

/-!
Shallow embedding of the memory-augmented dialogue agent
(`src/agent/memory.py`, `src/agent/graph.py`).

Python exceptions are modelled with `Except String`; the file system slot
holding the persisted FAISS index at `index_path` is modelled as an
`Option FAISS` value threaded explicitly.  External providers (embedding
backend, generation backend, Python's `json.loads`) are parameters of the
functions that call them.  Vectors are modelled over `Int` so that the
similarity ranking is exact and decidable.
-/

/-! ## Python string helpers

`extract_memory` in `graph.py` manipulates the raw LLM output with
`str.strip`, `str.startswith`, `split("\n", 1)[-1]` and
`rsplit("```", 1)[0]`.  These are modelled character-list-structurally so
that every use reduces in the kernel. -/

/-- Whitespace stripped by Python `str.strip()` (ASCII part). -/
def pySpace (c : Char) : Bool :=
  c.isWhitespace || c = '\x0B' || c = '\x0C'

/-- Python `s.strip()`. -/
def pyStrip (s : String) : String :=
  String.mk (((s.data.dropWhile pySpace).reverse.dropWhile pySpace).reverse)

/-- Boolean prefix test on character lists. -/
def chPrefixOf : List Char → List Char → Bool
  | [], _ => true
  | _ :: _, [] => false
  | a :: as, b :: bs => a == b && chPrefixOf as bs

/-- Python `s.startswith(p)`. -/
def pyStartsWith (p s : String) : Bool :=
  chPrefixOf p.data s.data

/-- Index of the first occurrence of `pat` in a character list. -/
def findSubFirst (pat : List Char) : List Char → Option Nat
  | [] => if pat.isEmpty then some 0 else none
  | c :: rest =>
    if chPrefixOf pat (c :: rest) then some 0
    else (findSubFirst pat rest).map (fun n => n + 1)

/-- Index of the last occurrence of `pat` in a character list. -/
def findSubLast (pat : List Char) : List Char → Option Nat
  | [] => if pat.isEmpty then some 0 else none
  | c :: rest =>
    match findSubLast pat rest with
    | some i => some (i + 1)
    | none => if chPrefixOf pat (c :: rest) then some 0 else none

/-- Python `s.split(sep, 1)[-1]`: everything after the first occurrence of
`sep`, or the whole string when `sep` does not occur. -/
def pyAfterFirst (sep s : String) : String :=
  match findSubFirst sep.data s.data with
  | some i => String.mk (s.data.drop (i + sep.data.length))
  | none => s

/-- Python `s.rsplit(sep, 1)[0]`: everything before the last occurrence of
`sep`, or the whole string when `sep` does not occur. -/
def pyBeforeLast (sep s : String) : String :=
  match findSubLast sep.data s.data with
  | some i => String.mk (s.data.take i)
  | none => s

/-! ## Data model (`memory.py`) -/

/-- A `langchain_core.documents.Document` as built by `memory.py`:
`page_content` is the fact text; the metadata keys are `topic`,
optionally `confidence` (present only on seed-loaded records), and
`source` (`"initial"` or `"conversation"`). -/
structure Document where
  page_content : String
  topic : String
  confidence : Option String
  source : String
deriving DecidableEq, Repr

/-- A document together with the vector the store computed for it when it
was added. -/
structure EmbDoc where
  doc : Document
  embedding : List Int
deriving DecidableEq, Repr

/-- The FAISS vector store: its records in insertion order, each carrying
the embedding produced at insertion time. -/
structure FAISS where
  docs : List EmbDoc
deriving DecidableEq, Repr

/-- `LongTermMemory`: the in-memory handle, whose `vectorstore` field is
`None` until an index is loaded or created. -/
structure LongTermMemory where
  vectorstore : Option FAISS
deriving DecidableEq, Repr

/-- One entry of `raymond_memories.json` (`fact` required, `topic` and
`confidence` optional). -/
structure SeedMemory where
  fact : String
  topic : Option String
  confidence : Option String
deriving DecidableEq, Repr

/-- Records of the store (empty when the handle is uninitialized). -/
def docsOf (m : LongTermMemory) : List EmbDoc :=
  match m.vectorstore with
  | none => []
  | some vs => vs.docs

/-! ## Similarity search

FAISS with normalized embeddings ranks by L2 distance, smaller =
more similar; ties keep insertion order (the model uses a stable sort). -/

/-- Squared L2 distance between two integer vectors. -/
def dist2 (u v : List Int) : Int :=
  ((u.zip v).map (fun p => (p.1 - p.2) * (p.1 - p.2))).sum

/-- Ranking relation used by the similarity search for query vector `qv`:
`a` is at least as similar as `b`. -/
def memLe (qv : List Int) (a b : EmbDoc) : Prop :=
  dist2 qv a.embedding ≤ dist2 qv b.embedding

instance (qv : List Int) : DecidableRel (memLe qv) :=
  fun a b => inferInstanceAs (Decidable (dist2 qv a.embedding ≤ dist2 qv b.embedding))

instance (qv : List Int) : IsTotal EmbDoc (memLe qv) :=
  ⟨fun a b => Int.le_total (dist2 qv a.embedding) (dist2 qv b.embedding)⟩

instance (qv : List Int) : IsTrans EmbDoc (memLe qv) :=
  ⟨fun _ _ _ hab hbc => le_trans hab hbc⟩

/-- `vectorstore.similarity_search(query, k)`: the `k` most similar
records, most similar first. -/
def similaritySearch (vs : FAISS) (qv : List Int) (k : Nat) : List EmbDoc :=
  (List.insertionSort (memLe qv) vs.docs).take k

/-! ## `LongTermMemory` operations (`memory.py` lines 53-111) -/

/-- `FAISS.from_documents(docs, embeddings)`: embeds each document. -/
def FAISS.from_documents (emb : String → List Int) (docs : List Document) : FAISS :=
  ⟨docs.map (fun d => ⟨d, emb d.page_content⟩)⟩

/-- `vectorstore.add_documents(docs)`: appends newly embedded records. -/
def FAISS.add_documents (emb : String → List Int) (vs : FAISS) (docs : List Document) : FAISS :=
  ⟨vs.docs ++ docs.map (fun d => ⟨d, emb d.page_content⟩)⟩

/-- `_load_initial_memories`: `[]` when `raymond_memories.json` is absent,
otherwise one `Document` per entry of its `memories` list, with defaults
`topic=""`, `confidence="medium"` and `source="initial"`. -/
def _load_initial_memories (memFile : Option (List SeedMemory)) : List Document :=
  match memFile with
  | none => []
  | some mems =>
    mems.map (fun mem =>
      ⟨mem.fact, mem.topic.getD "", some (mem.confidence.getD "medium"), "initial"⟩)

/-- `_load_or_create`: load the persisted index when present at the path;
otherwise build one from the seed documents — but only when at least one
seed document exists (`if docs:`) — and save it.  Returns the handle and
the new contents of the persisted slot. -/
def _load_or_create (emb : String → List Int) (disk : Option FAISS)
    (memFile : Option (List SeedMemory)) : LongTermMemory × Option FAISS :=
  match disk with
  | some s => (⟨some s⟩, some s)
  | none =>
    let docs := _load_initial_memories memFile
    if docs.isEmpty then (⟨none⟩, none)
    else
      let vs := FAISS.from_documents emb docs
      (⟨some vs⟩, some vs)

/-- `search(query, top_k)`: `[]` when no vectorstore exists, otherwise the
page contents of the `top_k` most similar records.  The embedding call of
the backend may fail, which propagates (there is no handler). -/
def search (embF : String → Except String (List Int)) (m : LongTermMemory)
    (query : String) (top_k : Nat) : Except String (List String) :=
  match m.vectorstore with
  | none => Except.ok []
  | some vs =>
    match embF query with
    | Except.error e => Except.error e
    | Except.ok qv =>
      Except.ok ((similaritySearch vs qv top_k).map (fun d => d.doc.page_content))

/-- `add_memory(fact, topic)`: build a `conversation` document, append it
to the vectorstore (creating the store when none exists), then
`save_local` the full store.  Returns the handle and the persisted slot. -/
def add_memory (emb : String → List Int) (m : LongTermMemory) (_disk : Option FAISS)
    (fact : String) (topic : String) : LongTermMemory × Option FAISS :=
  let doc : Document := ⟨fact, topic, none, "conversation"⟩
  let vs :=
    match m.vectorstore with
    | some vs => FAISS.add_documents emb vs [doc]
    | none => FAISS.from_documents emb [doc]
  (⟨some vs⟩, some vs)

/-- `get_all_count`: `0` when no vectorstore exists, else the size of the
docstore dictionary (one entry per record). -/
def get_all_count (m : LongTermMemory) : Nat :=
  match m.vectorstore with
  | none => 0
  | some vs => vs.docs.length

/-! ## Graph state (`graph.py`) -/

/-- A langchain chat message (`HumanMessage` / `AIMessage` /
`SystemMessage`) with its `content`. -/
inductive Msg where
  | human : String → Msg
  | ai : String → Msg
  | system : String → Msg
deriving DecidableEq, Repr

/-- `AgentState`: the full message history, this turn's retrieved
memories, and the extraction flag. -/
structure AgentState where
  messages : List Msg
  retrieved_memories : List String
  should_extract_memory : Bool
deriving DecidableEq, Repr

/-! ## Node 1: `retrieve_memories` -/

/-- The scan `for msg in reversed(messages): if isinstance(msg,
HumanMessage): ... break`, applied to the already reversed list: content
of the first human message found, `""` when none. -/
def findLastHuman : List Msg → String
  | [] => ""
  | Msg.human c :: _ => c
  | _ :: rest => findLastHuman rest

/-- Content of the most recent human message of the transcript. -/
def lastHumanOf (msgs : List Msg) : String :=
  findLastHuman msgs.reverse

/-- Node `retrieve_memories`: empty result when no (nonempty) human
message exists, otherwise `memory.search(last_human)` — whose failure
propagates, there being no exception handler in this node. -/
def retrieve_memories (embF : String → Except String (List Int)) (top_k : Nat)
    (mem : LongTermMemory) (st : AgentState) : Except String (List String) :=
  let last_human := lastHumanOf st.messages
  if last_human = "" then Except.ok []
  else search embF mem last_human top_k

/-! ## Node 2: `generate_response` -/

/-- The system message actually sent: the persona prompt, plus the memory
block only when the retrieved list is nonempty. -/
def fullSystemOf (system_prompt : String) (retrieved : List String) : String :=
  if retrieved.isEmpty then system_prompt
  else
    let memory_text := String.intercalate "\n" (retrieved.map (fun m => "- " ++ m))
    system_prompt ++
      "\n\n[你的记忆 - 以下是你脑海中和当前话题相关的记忆碎片，不用刻意提起每一条，只在对话自然需要的时候引用就好]\n" ++
      memory_text

/-- The short-term window: `conversation[-max_msgs:]` applied only when
`len(conversation) > max_msgs`, with `max_msgs = SHORT_TERM_WINDOW * 2`.
Mirrors Python slicing: `[-0:]` is the whole list. -/
def shortTermView (short_term_window : Nat) (msgs : List Msg) : List Msg :=
  let max_msgs := short_term_window * 2
  if msgs.length > max_msgs then
    if max_msgs = 0 then msgs else msgs.drop (msgs.length - max_msgs)
  else msgs

/-- Node `generate_response` in its success case (`llm.invoke` returned
`reply`): produces the updated state — reply appended to the full
transcript by the `add_messages` reducer, extraction flag set — and the
prompt message list that was sent to the model. -/
def generate_response (short_term_window : Nat) (system_prompt : String)
    (fewshot : List Msg) (reply : String) (st : AgentState) : AgentState × List Msg :=
  let full_system := fullSystemOf system_prompt st.retrieved_memories
  let conversation := shortTermView short_term_window st.messages
  let prompt_messages := Msg.system full_system :: (fewshot ++ conversation)
  ({ st with
      messages := st.messages ++ [Msg.ai reply],
      should_extract_memory := true },
   prompt_messages)

/-! ## Node 3: `extract_memory` -/

/-- An element of a parsed JSON array, as far as the extraction code
inspects it: either a string or something else (`isinstance(fact, str)`
is the only check applied to elements). -/
inductive PyItem where
  | str : String → PyItem
  | other : PyItem
deriving DecidableEq, Repr

/-- A value Python's `json.loads` can hand back, as far as the extraction
code inspects it: an array, or something that is not an array
(`isinstance(facts, list)` is the only check applied to the root). -/
inductive PyVal where
  | list : List PyItem → PyVal
  | str : String → PyVal
  | other : PyVal
deriving DecidableEq, Repr

/-- The content preprocessing before `json.loads`: strip, then — only
when the text starts with a fence — drop the first line, drop everything
from the last fence on, and strip again. -/
def processContent (raw : String) : String :=
  let content := pyStrip raw
  if pyStartsWith "```" content then
    pyStrip (pyBeforeLast "```" (pyAfterFirst "\n" content))
  else content

/-- The acceptance loop over the parsed array: keep `fact` iff it is a
string of length greater than 5. -/
def acceptFacts (vals : List PyItem) : List String :=
  vals.filterMap (fun v =>
    match v with
    | PyItem.str s => if s.length > 5 then some s else none
    | PyItem.other => none)

/-- The facts the extraction body persists, given the provider outcome
and the behavior of `json.loads` on the preprocessed content: empty on
provider failure, parse failure, or a non-array parse. -/
def extractAdds (llmOut : Except String String)
    (parse : String → Except String PyVal) : List String :=
  match llmOut with
  | Except.error _ => []
  | Except.ok raw =>
    match parse (processContent raw) with
    | Except.error _ => []
    | Except.ok (PyVal.list vals) => acceptFacts vals
    | Except.ok _ => []

/-- The scan for the latest exchange (`for msg in reversed(messages)`,
with Python truthiness on the accumulated strings and the `elif`), to be
applied to the reversed message list with both accumulators `""`. -/
def lastRound : List Msg → String → String → String × String
  | [], lh, la => (lh, la)
  | msg :: rest, lh, la =>
    let p : String × String :=
      match msg with
      | Msg.ai c => if la = "" then (lh, c) else (lh, la)
      | Msg.human c => if lh = "" then (c, la) else (lh, la)
      | Msg.system _ => (lh, la)
    if p.1 ≠ "" ∧ p.2 ≠ "" then p else lastRound rest p.1 p.2

/-- Sequential `add_memory` calls, one per fact, each with the default
empty topic, threading the store handle and the persisted slot. -/
def addAll (emb : String → List Int) (m : LongTermMemory) (d : Option FAISS) :
    List String → LongTermMemory × Option FAISS
  | [] => (m, d)
  | f :: rest =>
    let r := add_memory emb m d f ""
    addAll emb r.1 r.2 rest

/-- Result of the `extract_memory` node: the state update (with the
reset flag), the trace of `add_memory` calls it made, and the resulting
store handle and persisted slot. -/
structure ExtractOut where
  state : AgentState
  adds : List String
  mem : LongTermMemory
  disk : Option FAISS
deriving DecidableEq, Repr

/-- Node `extract_memory`: skip unless the flag is set, at least two
messages exist and the latest exchange has both sides nonempty; otherwise
run the provider/parse pipeline and persist each accepted fact with its
own `add_memory` call.  Every failure inside the body is swallowed by the
`except` clause, so the node always returns normally. -/
def extract_memory (llmOut : Except String String)
    (parse : String → Except String PyVal) (emb : String → List Int)
    (m : LongTermMemory) (d : Option FAISS) (st : AgentState) : ExtractOut :=
  if st.should_extract_memory = false then ⟨st, [], m, d⟩
  else if st.messages.length < 2 then
    ⟨{ st with should_extract_memory := false }, [], m, d⟩
  else
    let p := lastRound st.messages.reverse "" ""
    if p.1 = "" ∨ p.2 = "" then
      ⟨{ st with should_extract_memory := false }, [], m, d⟩
    else
      let adds := extractAdds llmOut parse
      let r := addAll emb m d adds
      ⟨{ st with should_extract_memory := false }, adds, r.1, r.2⟩

/-- The conditions under which `extract_memory` reaches its extraction
body rather than one of the early returns. -/
def ExtractGuard (st : AgentState) : Prop :=
  st.should_extract_memory = true ∧ 2 ≤ st.messages.length ∧
  (lastRound st.messages.reverse "" "").1 ≠ "" ∧
  (lastRound st.messages.reverse "" "").2 ≠ ""

instance (st : AgentState) : Decidable (ExtractGuard st) := by
  unfold ExtractGuard; infer_instance

/-! ## One full turn of the compiled graph

`START → retrieve_memories → generate_response → extract_memory → END`.
An exception escaping a node aborts the `invoke` call: no state update is
committed and the error reaches the caller (`chat.py` prints it and no
reply is shown). -/

def runTurn (embF : String → Except String (List Int)) (top_k : Nat)
    (genOut : Except String String) (extOut : Except String String)
    (parse : String → Except String PyVal) (emb : String → List Int)
    (short_term_window : Nat) (system_prompt : String) (fewshot : List Msg)
    (mem : LongTermMemory) (disk : Option FAISS) (st : AgentState) :
    Except String (AgentState × LongTermMemory × Option FAISS) :=
  match retrieve_memories embF top_k mem st with
  | Except.error e => Except.error e
  | Except.ok retrieved =>
    let st1 := { st with retrieved_memories := retrieved }
    match genOut with
    | Except.error e => Except.error e
    | Except.ok reply =>
      let st2 := (generate_response short_term_window system_prompt fewshot reply st1).1
      let r := extract_memory extOut parse emb mem disk st2
      Except.ok (r.state, r.mem, r.disk)

/-! ## Concrete instances used by witnesses -/

/-- Deterministic demo embedding backend: one-dimensional, the character
count of the text. -/
def demoEmb (s : String) : List Int := [(s.length : Int)]

/-- The demo embedding backend as an always-succeeding provider. -/
def demoEmbF (s : String) : Except String (List Int) := Except.ok (demoEmb s)

/-- An always-failing embedding provider. -/
def embFail : String → Except String (List Int) :=
  fun _ => Except.error "embedding unavailable"

/-- A two-record store. -/
def demoVS : FAISS :=
  ⟨[⟨⟨"user likes tea", "", none, "conversation"⟩, [8]⟩,
    ⟨⟨"user has a dog", "", none, "conversation"⟩, [3]⟩]⟩

/-- A handle over the two-record store. -/
def demoMem : LongTermMemory := ⟨some demoVS⟩

/-- A state holding a single user turn. -/
def stHello : AgentState := ⟨[Msg.human "hello"], [], false⟩

/-- A state holding one full exchange, extraction pending. -/
def stRound : AgentState :=
  ⟨[Msg.human "i really love coffee", Msg.ai "nice, me too"], [], true⟩

/-- A `json.loads` model agreeing with Python on the two concrete
payloads the witnesses exercise. -/
def demoParse : String → Except String PyVal := fun s =>
  if s = "[\"user likes coffee\"]" then
    Except.ok (PyVal.list [PyItem.str "user likes coffee"])
  else if s = "MIXED" then
    Except.ok (PyVal.list
      [PyItem.str "user has a cat named Mochi", PyItem.str "hi", PyItem.other])
  else Except.error "Expecting value"

/-- Equality of provider/parse outcomes is decidable when both component
types are, letting witnesses evaluate concrete runs. -/
instance {ε α : Type} [DecidableEq ε] [DecidableEq α] : DecidableEq (Except ε α) := fun a b => by
  cases a <;> cases b
  · rename_i e f
    exact if h : e = f then Decidable.isTrue (by rw [h]) else Decidable.isFalse (by simp [h])
  · exact Decidable.isFalse (by simp)
  · exact Decidable.isFalse (by simp)
  · rename_i x y
    exact if h : x = y then Decidable.isTrue (by rw [h]) else Decidable.isFalse (by simp [h])

/-! ## Helper lemmas -/

theorem docsOf_add (emb : String → List Int) (m : LongTermMemory) (d : Option FAISS)
    (f t : String) :
    docsOf (add_memory emb m d f t).1 =
      docsOf m ++ [⟨⟨f, t, none, "conversation"⟩, emb f⟩] := by
  cases h : m.vectorstore <;>
    simp [add_memory, docsOf, h, FAISS.add_documents, FAISS.from_documents]

theorem add_persists (emb : String → List Int) (m : LongTermMemory) (d : Option FAISS)
    (f t : String) :
    (add_memory emb m d f t).2 = (add_memory emb m d f t).1.vectorstore := by
  cases m.vectorstore <;> rfl

theorem add_initialized (emb : String → List Int) (m : LongTermMemory) (d : Option FAISS)
    (f t : String) : (add_memory emb m d f t).2.isSome := by
  cases m.vectorstore <;> rfl

theorem count_eq_docs (m : LongTermMemory) : get_all_count m = (docsOf m).length := by
  cases h : m.vectorstore <;> simp [get_all_count, docsOf, h]

theorem dist2_self (v : List Int) : dist2 v v = 0 := by
  induction v with
  | nil => rfl
  | cons a v ih =>
    simp only [dist2, List.zip_cons_cons, List.map_cons, List.sum_cons] at ih ⊢
    simp [ih]

theorem dist2_nonneg (u v : List Int) : 0 ≤ dist2 u v := by
  apply List.sum_nonneg
  intro x hx
  obtain ⟨p, _, rfl⟩ := List.mem_map.mp hx
  exact mul_self_nonneg _

theorem extract_memory_flag (o : Except String String) (p : String → Except String PyVal)
    (e : String → List Int) (m : LongTermMemory) (d : Option FAISS) (st : AgentState) :
    (extract_memory o p e m d st).state.should_extract_memory = false := by
  unfold extract_memory
  by_cases h1 : st.should_extract_memory = false
  · simp [h1]
  · by_cases h2 : st.messages.length < 2
    · simp [h1, h2]
    · by_cases h3 : (lastRound st.messages.reverse "" "").1 = "" ∨
          (lastRound st.messages.reverse "" "").2 = ""
      · simp [h1, h2, h3]
      · simp [h1, h2, h3]

theorem extract_memory_guard_eq (o : Except String String) (p : String → Except String PyVal)
    (e : String → List Int) (m : LongTermMemory) (d : Option FAISS) (st : AgentState)
    (h : ExtractGuard st) :
    extract_memory o p e m d st =
      ⟨{ st with should_extract_memory := false }, extractAdds o p,
       (addAll e m d (extractAdds o p)).1, (addAll e m d (extractAdds o p)).2⟩ := by
  obtain ⟨h1, h2, h3, h4⟩ := h
  have h1' : ¬ st.should_extract_memory = false := by simp [h1]
  have h2' : ¬ st.messages.length < 2 := by omega
  have h3' : ¬ ((lastRound st.messages.reverse "" "").1 = "" ∨
      (lastRound st.messages.reverse "" "").2 = "") := by
    push_neg
    exact ⟨h3, h4⟩
  simp [extract_memory, h1', h2', h3']

theorem extract_memory_skip (o : Except String String) (p : String → Except String PyVal)
    (e : String → List Int) (m : LongTermMemory) (d : Option FAISS) (st : AgentState)
    (h : ¬ ExtractGuard st) :
    (extract_memory o p e m d st).adds = [] ∧
    (extract_memory o p e m d st).mem = m ∧
    (extract_memory o p e m d st).disk = d := by
  unfold extract_memory
  unfold ExtractGuard at h
  by_cases h1 : st.should_extract_memory = false
  · simp [h1]
  · by_cases h2 : st.messages.length < 2
    · simp [h1, h2]
    · by_cases h3 : (lastRound st.messages.reverse "" "").1 = "" ∨
          (lastRound st.messages.reverse "" "").2 = ""
      · simp [h1, h2, h3]
      · exfalso
        apply h
        push_neg at h3
        refine ⟨?_, by omega, h3.1, h3.2⟩
        cases hb : st.should_extract_memory
        · exact absurd hb h1
        · rfl

theorem extract_memory_adds (o : Except String String) (p : String → Except String PyVal)
    (e : String → List Int) (m : LongTermMemory) (d : Option FAISS) (st : AgentState) :
    (extract_memory o p e m d st).adds =
      if ExtractGuard st then extractAdds o p else [] := by
  by_cases h : ExtractGuard st
  · simp [extract_memory_guard_eq o p e m d st h, h]
  · simp [h, (extract_memory_skip o p e m d st h).1]

theorem addAll_docs (e : String → List Int) (fs : List String) :
    ∀ (m : LongTermMemory) (d : Option FAISS),
    docsOf (addAll e m d fs).1 =
      docsOf m ++ fs.map (fun f => (⟨⟨f, "", none, "conversation"⟩, e f⟩ : EmbDoc)) := by
  induction fs with
  | nil => intro m d; simp [addAll]
  | cons f rest ih =>
    intro m d
    simp only [addAll, List.map_cons]
    rw [ih, docsOf_add]
    simp

/-! ## Claim theorems -/

/-- Claim C7: `add_memory` embeds the fact, appends exactly one new
record (with `source = "conversation"` and the embedding of the fact),
persists the full resulting store synchronously, never deduplicates —
adding the same fact twice yields two coexisting records — and raises the
count by one each time. -/
theorem add_memory_contract (emb : String → List Int) (m : LongTermMemory)
    (d : Option FAISS) (f t : String) :
    docsOf (add_memory emb m d f t).1 =
      docsOf m ++ [⟨⟨f, t, none, "conversation"⟩, emb f⟩] ∧
    (add_memory emb m d f t).2 = (add_memory emb m d f t).1.vectorstore ∧
    (add_memory emb m d f t).2.isSome = true ∧
    get_all_count (add_memory emb m d f t).1 = get_all_count m + 1 ∧
    docsOf (add_memory emb (add_memory emb m d f t).1 (add_memory emb m d f t).2 f t).1 =
      docsOf m ++ [⟨⟨f, t, none, "conversation"⟩, emb f⟩,
                   ⟨⟨f, t, none, "conversation"⟩, emb f⟩] ∧
    get_all_count (add_memory emb (add_memory emb m d f t).1 (add_memory emb m d f t).2 f t).1 =
      get_all_count m + 2 := by
  refine ⟨docsOf_add emb m d f t, add_persists emb m d f t, add_initialized emb m d f t,
    ?_, ?_, ?_⟩
  · rw [count_eq_docs, count_eq_docs, docsOf_add]; simp
  · rw [docsOf_add, docsOf_add]; simp
  · rw [count_eq_docs, count_eq_docs, docsOf_add, docsOf_add]; simp

/-- Claim C10: on a store that was initialized with no persisted index
and no seed records (so no in-memory index exists), `get_all_count`
returns 0, and `add_memory` succeeds: it creates a store holding exactly
the one new record, persists it, and the count becomes 1. -/
theorem add_on_uninitialized (emb : String → List Int)
    (memFile : Option (List SeedMemory)) (f t : String)
    (hseed : _load_initial_memories memFile = []) :
    (_load_or_create emb none memFile).1.vectorstore = none ∧
    get_all_count (_load_or_create emb none memFile).1 = 0 ∧
    docsOf (add_memory emb (_load_or_create emb none memFile).1
        (_load_or_create emb none memFile).2 f t).1 =
      [⟨⟨f, t, none, "conversation"⟩, emb f⟩] ∧
    (add_memory emb (_load_or_create emb none memFile).1
        (_load_or_create emb none memFile).2 f t).2 =
      some ⟨[⟨⟨f, t, none, "conversation"⟩, emb f⟩]⟩ ∧
    get_all_count (add_memory emb (_load_or_create emb none memFile).1
        (_load_or_create emb none memFile).2 f t).1 = 1 := by
  have h0 : _load_or_create emb none memFile = (⟨none⟩, none) := by
    simp [_load_or_create, hseed]
  rw [h0]
  refine ⟨rfl, rfl, ?_, rfl, rfl⟩
  simp [add_memory, FAISS.from_documents, docsOf]

/-- Witness for C10 at a concrete input: no memories file, demo
embedding, one concrete fact. -/
theorem add_on_uninitialized_witness :
    _load_initial_memories (none : Option (List SeedMemory)) = [] ∧
    get_all_count (_load_or_create demoEmb none none).1 = 0 ∧
    get_all_count (add_memory demoEmb (_load_or_create demoEmb none none).1
        (_load_or_create demoEmb none none).2 "user has a cat" "").1 = 1 :=
  ⟨rfl,
   (add_on_uninitialized demoEmb none "user has a cat" "" rfl).2.1,
   (add_on_uninitialized demoEmb none "user has a cat" "" rfl).2.2.2.2⟩

/-- Counterexample to C2 as stated: with no persisted store and an empty
seed collection, `_load_or_create` builds nothing and persists nothing —
afterwards no persisted store exists at the path and the handle is still
uninitialized. -/
theorem load_or_init_empty_seed_cex :
    (_load_or_create demoEmb none (some [])).1.vectorstore = none ∧
    (_load_or_create demoEmb none (some [])).2 = none :=
  ⟨rfl, rfl⟩

/-- Claim C2 (amended): when no persisted store exists, `_load_or_create`
builds a store from the seed records and persists it immediately provided
the seed collection is nonempty; with an empty seed collection it builds
and persists nothing, leaving the store uninitialized until the first
`add_memory`. -/
theorem load_or_init_no_store (emb : String → List Int)
    (memFile : Option (List SeedMemory)) :
    (_load_initial_memories memFile = [] →
      _load_or_create emb none memFile = (⟨none⟩, none)) ∧
    (_load_initial_memories memFile ≠ [] →
      _load_or_create emb none memFile =
        (⟨some (FAISS.from_documents emb (_load_initial_memories memFile))⟩,
         some (FAISS.from_documents emb (_load_initial_memories memFile)))) := by
  constructor
  · intro h
    simp [_load_or_create, h]
  · intro h
    simp [_load_or_create, h]

/-- Witness for C2 (amended): a one-record seed collection is built and
persisted; an empty one is not. -/
theorem load_or_init_no_store_witness :
    _load_or_create demoEmb none (some [⟨"Raymond met the user in 2023", none, none⟩]) =
      (⟨some (FAISS.from_documents demoEmb
          (_load_initial_memories (some [⟨"Raymond met the user in 2023", none, none⟩])))⟩,
       some (FAISS.from_documents demoEmb
          (_load_initial_memories (some [⟨"Raymond met the user in 2023", none, none⟩])))) ∧
    _load_or_create demoEmb none (some []) = (⟨none⟩, none) :=
  ⟨(load_or_init_no_store demoEmb (some [⟨"Raymond met the user in 2023", none, none⟩])).2
      (by decide),
   (load_or_init_no_store demoEmb (some [])).1 rfl⟩

/-- Counterexample to C5 as stated: with configured round window `W = 0`
and one appended turn, the view passed to generation is the whole
transcript (Python `list[-0:]` is the whole list), not `min(1, 0) = 0`
turns. -/
theorem window_zero_cex :
    shortTermView 0 [Msg.human "hi"] = [Msg.human "hi"] ∧
    (shortTermView 0 [Msg.human "hi"]).length ≠
      min ([Msg.human "hi"] : List Msg).length (2 * 0) := by
  exact ⟨rfl, by decide⟩

/-- Claim C5 (amended): for every configured round window `W ≥ 1`, the
windowed view passed to generation is exactly the `min(m, 2W)` most
recent turns in original order, and the node never mutates the underlying
transcript: the full message history is retained (with the new reply
appended by the reducer). For `W = 0` the code passes the entire
transcript instead. -/
theorem window_spec (W : Nat) (msgs : List Msg) (hW : 1 ≤ W) :
    shortTermView W msgs = msgs.drop (msgs.length - W * 2) ∧
    (shortTermView W msgs).length = min msgs.length (W * 2) ∧
    (∀ sp fs reply st,
      (generate_response W sp fs reply st).1.messages = st.messages ++ [Msg.ai reply] ∧
      (generate_response W sp fs reply st).2 =
        Msg.system (fullSystemOf sp st.retrieved_memories) ::
          (fs ++ shortTermView W st.messages)) := by
  have hW2 : W * 2 ≠ 0 := by omega
  have h1 : shortTermView W msgs = msgs.drop (msgs.length - W * 2) := by
    unfold shortTermView
    by_cases h : msgs.length > W * 2
    · simp [h, hW2]
    · have h0 : msgs.length - W * 2 = 0 := by omega
      simp [h, h0]
  refine ⟨h1, ?_, ?_⟩
  · rw [h1, List.length_drop]
    omega
  · intro sp fs reply st
    exact ⟨rfl, rfl⟩

/-- Witness for C5 (amended) at `W = 1` over a three-turn transcript. -/
theorem window_spec_witness :
    shortTermView 1 [Msg.human "a", Msg.ai "b", Msg.human "c"] =
      List.drop 1 [Msg.human "a", Msg.ai "b", Msg.human "c"] ∧
    (shortTermView 1 [Msg.human "a", Msg.ai "b", Msg.human "c"]).length =
      min ([Msg.human "a", Msg.ai "b", Msg.human "c"] : List Msg).length (1 * 2) ∧
    (generate_response 1 "persona" [] "ok" stHello).1.messages =
      stHello.messages ++ [Msg.ai "ok"] :=
  ⟨(window_spec 1 [Msg.human "a", Msg.ai "b", Msg.human "c"] (by decide)).1,
   (window_spec 1 [Msg.human "a", Msg.ai "b", Msg.human "c"] (by decide)).2.1,
   ((window_spec 1 [Msg.human "a", Msg.ai "b", Msg.human "c"] (by decide)).2.2
      "persona" [] "ok" stHello).1⟩

/-- Claim C6: `generate_response` sets the extraction flag to true; the
`extract_memory` phase leaves the flag false in every case, so it is
false whenever the graph is back at rest; and entering extraction with
fewer than 2 messages performs zero `add_memory` calls and leaves the
store untouched. -/
theorem pending_extraction_lifecycle :
    (∀ (W : Nat) (sp : String) (fs : List Msg) (reply : String) (st : AgentState),
      ((generate_response W sp fs reply st).1).should_extract_memory = true) ∧
    (∀ (o : Except String String) (p : String → Except String PyVal)
        (e : String → List Int) (m : LongTermMemory) (d : Option FAISS) (st : AgentState),
      ((extract_memory o p e m d st).state).should_extract_memory = false) ∧
    (∀ (o : Except String String) (p : String → Except String PyVal)
        (e : String → List Int) (m : LongTermMemory) (d : Option FAISS) (st : AgentState),
      st.messages.length < 2 →
      (extract_memory o p e m d st).adds = [] ∧
      (extract_memory o p e m d st).mem = m ∧
      (extract_memory o p e m d st).disk = d) := by
  refine ⟨fun W sp fs reply st => rfl, extract_memory_flag, ?_⟩
  intro o p e m d st h
  apply extract_memory_skip
  intro hg
  exact absurd hg.2.1 (by omega)

/-- Witness for C6 at concrete inputs: a freshly generated reply has the
flag set; extraction on a one-message transcript resets it and adds
nothing. -/
theorem pending_extraction_lifecycle_witness :
    ((generate_response 20 "persona" [] "ok" stHello).1).should_extract_memory = true ∧
    ((extract_memory (Except.ok "[]") demoParse demoEmb ⟨none⟩ none
        ⟨[Msg.human "hi"], [], true⟩).state).should_extract_memory = false ∧
    ([Msg.human "hi"] : List Msg).length < 2 ∧
    (extract_memory (Except.ok "[]") demoParse demoEmb ⟨none⟩ none
        ⟨[Msg.human "hi"], [], true⟩).adds = [] :=
  ⟨pending_extraction_lifecycle.1 20 "persona" [] "ok" stHello,
   pending_extraction_lifecycle.2.1 (Except.ok "[]") demoParse demoEmb ⟨none⟩ none
     ⟨[Msg.human "hi"], [], true⟩,
   by decide,
   (pending_extraction_lifecycle.2.2 (Except.ok "[]") demoParse demoEmb ⟨none⟩ none
     ⟨[Msg.human "hi"], [], true⟩ (by decide)).1⟩

/-- Claim C4: `search` returns at most `min(k, n)` fact strings, each the
content of a record present in the store, ordered most-similar first
(ranking relation `memLe`); and on an empty (uninitialized) store it
returns the empty list rather than an error, for every query. -/
theorem search_contract :
    (∀ (embF : String → Except String (List Int)) (q : String) (k : Nat)
        (m : LongTermMemory),
      m.vectorstore = none → search embF m q k = Except.ok []) ∧
    (∀ (embF : String → Except String (List Int)) (m : LongTermMemory)
        (q : String) (k : Nat) (qv : List Int) (vs : FAISS),
      m.vectorstore = some vs → embF q = Except.ok qv →
      search embF m q k =
        Except.ok ((similaritySearch vs qv k).map (fun d => d.doc.page_content)) ∧
      ((similaritySearch vs qv k).map (fun d => d.doc.page_content)).length ≤
        min k (get_all_count m) ∧
      (∀ f ∈ (similaritySearch vs qv k).map (fun d => d.doc.page_content),
        ∃ ed ∈ docsOf m, ed.doc.page_content = f) ∧
      List.Sorted (memLe qv) (similaritySearch vs qv k)) := by
  constructor
  · intro embF q k m h
    simp [search, h]
  · intro embF m q k qv vs hvs hemb
    have hdocs : docsOf m = vs.docs := by simp [docsOf, hvs]
    have hcount : get_all_count m = vs.docs.length := by simp [get_all_count, hvs]
    refine ⟨by simp [search, hvs, hemb], ?_, ?_, ?_⟩
    · rw [List.length_map, hcount]
      simp [similaritySearch, List.length_take, List.length_insertionSort]
    · intro f hf
      obtain ⟨ed, hed, rfl⟩ := List.mem_map.mp hf
      refine ⟨ed, ?_, rfl⟩
      rw [hdocs]
      have h1 : ed ∈ List.insertionSort (memLe qv) vs.docs :=
        List.take_subset _ _ hed
      exact (List.mem_insertionSort (memLe qv)).mp h1
    · exact List.Pairwise.sublist (List.take_sublist _ _)
        (List.sorted_insertionSort (memLe qv) vs.docs)

/-- Witness for C4 at concrete inputs: the uninitialized store answers
with the empty list even under a failing embedder, and a two-record store
with `k = 1` obeys the contract. -/
theorem search_contract_witness :
    search embFail (⟨none⟩ : LongTermMemory) "anything" 3 = Except.ok [] ∧
    search demoEmbF demoMem "q" 1 =
      Except.ok ((similaritySearch demoVS (demoEmb "q") 1).map
        (fun d => d.doc.page_content)) ∧
    ((similaritySearch demoVS (demoEmb "q") 1).map
        (fun d => d.doc.page_content)).length ≤ min 1 (get_all_count demoMem) ∧
    List.Sorted (memLe (demoEmb "q")) (similaritySearch demoVS (demoEmb "q") 1) :=
  ⟨search_contract.1 embFail "anything" 3 ⟨none⟩ rfl,
   (search_contract.2 demoEmbF demoMem "q" 1 (demoEmb "q") demoVS rfl rfl).1,
   (search_contract.2 demoEmbF demoMem "q" 1 (demoEmb "q") demoVS rfl rfl).2.1,
   (search_contract.2 demoEmbF demoMem "q" 1 (demoEmb "q") demoVS rfl rfl).2.2.2⟩

/-- Claim C8: `add_memory(f)` followed by a fresh `_load_or_create` on
the same path yields a store whose `search(f, 1)` is exactly `[f]`
(persisted records survive the restart), provided no pre-existing record
collides with `f` in embedding space while carrying a different fact. -/
theorem add_roundtrip (emb : String → List Int) (m : LongTermMemory) (d : Option FAISS)
    (f t : String) (seeds : Option (List SeedMemory))
    (hcol : ∀ ed ∈ docsOf m, dist2 (emb f) ed.embedding = 0 → ed.doc.page_content = f) :
    search (fun s => Except.ok (emb s))
      (_load_or_create emb (add_memory emb m d f t).2 seeds).1 f 1 = Except.ok [f] := by
  set newRec : EmbDoc := ⟨⟨f, t, none, "conversation"⟩, emb f⟩ with hnew
  obtain ⟨vs, hvs⟩ : ∃ vs, (add_memory emb m d f t).1.vectorstore = some vs := by
    have h := add_initialized emb m d f t
    rw [add_persists] at h
    cases hv : (add_memory emb m d f t).1.vectorstore
    · rw [hv] at h; exact absurd h (by simp)
    · exact ⟨_, rfl⟩
  have hdisk : (add_memory emb m d f t).2 = some vs := by
    rw [add_persists, hvs]
  have hdocs : vs.docs = docsOf m ++ [newRec] := by
    have h := docsOf_add emb m d f t
    rw [← hnew] at h
    simpa [docsOf, hvs] using h
  have hload : (_load_or_create emb (add_memory emb m d f t).2 seeds).1 =
      ⟨some vs⟩ := by
    rw [hdisk]; rfl
  rw [hload]
  simp only [search]
  set L := List.insertionSort (memLe (emb f)) vs.docs with hL
  have hperm : L.Perm vs.docs := List.perm_insertionSort _ _
  have hlen : L.length = vs.docs.length := hperm.length_eq
  have hpos : 0 < L.length := by
    rw [hlen, hdocs]; simp
  obtain ⟨hd, tl, hcons⟩ : ∃ hd tl, L = hd :: tl := by
    cases hLc : L
    · rw [hLc] at hpos; simp at hpos
    · exact ⟨_, _, rfl⟩
  have hsorted : List.Sorted (memLe (emb f)) L := List.sorted_insertionSort _ _
  have hnewL : newRec ∈ L := by
    rw [hL, List.mem_insertionSort, hdocs]
    simp
  have hhd : hd.doc.page_content = f := by
    have hhdmem : hd ∈ vs.docs := by
      rw [← List.mem_insertionSort (memLe (emb f)), ← hL, hcons]
      simp
    have hd0 : dist2 (emb f) hd.embedding = 0 := by
      rcases (by rw [hcons] at hnewL; simpa using hnewL :
          newRec = hd ∨ newRec ∈ tl) with heq | htl
      · rw [← heq, hnew, dist2_self]
      · have hle : memLe (emb f) hd newRec := by
          rw [hcons] at hsorted
          exact List.rel_of_sorted_cons hsorted newRec htl
        rw [hnew] at hle
        unfold memLe at hle
        simp only [dist2_self] at hle
        exact le_antisymm hle (dist2_nonneg _ _)
    rw [hdocs] at hhdmem
    rcases List.mem_append.mp hhdmem with hold | hnw
    · exact hcol hd hold hd0
    · simp at hnw
      rw [hnw, hnew]
  rw [similaritySearch, ← hL, hcons]
  simp [List.take, hhd]

/-- Witness for C8: a store already holding one non-colliding record,
the demo embedding, and one concrete added fact. -/
theorem add_roundtrip_witness :
    dist2 (demoEmb "user has a cat") [20] = 36 ∧
    search (fun s => Except.ok (demoEmb s))
      (_load_or_create demoEmb
        (add_memory demoEmb
          ⟨some ⟨[⟨⟨"user likes tea", "", none, "conversation"⟩, [20]⟩]⟩⟩
          none "user has a cat" "").2 none).1
      "user has a cat" 1 = Except.ok ["user has a cat"] :=
  ⟨by decide,
   add_roundtrip demoEmb
     ⟨some ⟨[⟨⟨"user likes tea", "", none, "conversation"⟩, [20]⟩]⟩⟩
     none "user has a cat" "" none (by decide)⟩

theorem extract_noop (o : Except String String) (p : String → Except String PyVal)
    (e : String → List Int) (m : LongTermMemory) (d : Option FAISS) (st : AgentState)
    (h : extractAdds o p = []) :
    (extract_memory o p e m d st).adds = [] ∧
    (extract_memory o p e m d st).mem = m ∧
    (extract_memory o p e m d st).disk = d := by
  by_cases hg : ExtractGuard st
  · rw [extract_memory_guard_eq o p e m d st hg]
    simp [h, addAll]
  · exact extract_memory_skip o p e m d st hg

theorem acceptFacts_map_str (facts : List String) (h : ∀ f ∈ facts, 5 < f.length) :
    acceptFacts (facts.map PyItem.str) = facts := by
  induction facts with
  | nil => rfl
  | cons f rest ih =>
    have hf : 5 < f.length := h f (by simp)
    simp only [List.map_cons, acceptFacts, List.filterMap_cons]
    rw [if_pos (by omega)]
    have := ih (fun g hg => h g (by simp [hg]))
    simp only [acceptFacts] at this
    rw [this]

/-- Claim C3: the extraction node strips one optional fenced block before
`json.loads`; a provider failure, a parse failure, or a non-array parse
result each yield zero persisted facts and leave the store untouched,
with the node returning normally; and an array of fact strings (all
longer than 5 characters) yields exactly those facts. -/
theorem extraction_robustness (parse : String → Except String PyVal)
    (emb : String → List Int) (m : LongTermMemory) (d : Option FAISS) (st : AgentState)
    (raw msg : String) (facts : List String) :
    ((extract_memory (Except.error msg) parse emb m d st).adds = [] ∧
     (extract_memory (Except.error msg) parse emb m d st).mem = m ∧
     (extract_memory (Except.error msg) parse emb m d st).disk = d) ∧
    (∀ e, parse (processContent raw) = Except.error e →
      (extract_memory (Except.ok raw) parse emb m d st).adds = [] ∧
      (extract_memory (Except.ok raw) parse emb m d st).mem = m ∧
      (extract_memory (Except.ok raw) parse emb m d st).disk = d) ∧
    (∀ v, parse (processContent raw) = Except.ok v → (∀ vals, v ≠ PyVal.list vals) →
      (extract_memory (Except.ok raw) parse emb m d st).adds = [] ∧
      (extract_memory (Except.ok raw) parse emb m d st).mem = m ∧
      (extract_memory (Except.ok raw) parse emb m d st).disk = d) ∧
    (ExtractGuard st →
      parse (processContent raw) = Except.ok (PyVal.list (facts.map PyItem.str)) →
      (∀ f ∈ facts, 5 < f.length) →
      (extract_memory (Except.ok raw) parse emb m d st).adds = facts) := by
  refine ⟨extract_noop _ _ _ _ _ _ rfl, ?_, ?_, ?_⟩
  · intro e he
    exact extract_noop _ _ _ _ _ _ (by simp [extractAdds, he])
  · intro v hv hnl
    apply extract_noop
    cases v with
    | list vals => exact absurd rfl (hnl vals)
    | str s => simp [extractAdds, hv]
    | other => simp [extractAdds, hv]
  · intro hg hparse hlen
    rw [extract_memory_guard_eq _ _ _ _ _ _ hg]
    simp only [extractAdds, hparse]
    exact acceptFacts_map_str facts hlen

/-- Witness for C3: the spec's own example — a fenced JSON array holding
`"user likes coffee"` yields exactly that fact, and a provider failure
yields none. -/
theorem extraction_robustness_witness :
    processContent "```json\n[\"user likes coffee\"]\n```" = "[\"user likes coffee\"]" ∧
    (extract_memory (Except.ok "```json\n[\"user likes coffee\"]\n```") demoParse demoEmb
      demoMem none stRound).adds = ["user likes coffee"] ∧
    (extract_memory (Except.error "GenerationFailed") demoParse demoEmb
      demoMem none stRound).adds = [] :=
  ⟨by decide,
   (extraction_robustness demoParse demoEmb demoMem none stRound
      "```json\n[\"user likes coffee\"]\n```" "GenerationFailed"
      ["user likes coffee"]).2.2.2 (by decide) (by decide) (by decide),
   (extraction_robustness demoParse demoEmb demoMem none stRound
      "```json\n[\"user likes coffee\"]\n```" "GenerationFailed"
      ["user likes coffee"]).1.1⟩

/-- Claim C9: from a parsed array, a fact is persisted exactly when it is
a string of length greater than 5, and each accepted fact is written
through its own independent `add_memory` call, so the store gains one
`conversation` record per accepted fact, in order. -/
theorem extraction_filter (parse : String → Except String PyVal)
    (emb : String → List Int) (m : LongTermMemory) (d : Option FAISS) (st : AgentState)
    (raw : String) (vals : List PyItem) (hg : ExtractGuard st)
    (hparse : parse (processContent raw) = Except.ok (PyVal.list vals)) :
    (extract_memory (Except.ok raw) parse emb m d st).adds = acceptFacts vals ∧
    (∀ f, f ∈ acceptFacts vals ↔ (PyItem.str f ∈ vals ∧ 5 < f.length)) ∧
    docsOf (extract_memory (Except.ok raw) parse emb m d st).mem =
      docsOf m ++ (acceptFacts vals).map
        (fun f => (⟨⟨f, "", none, "conversation"⟩, emb f⟩ : EmbDoc)) := by
  have hadds : extractAdds (Except.ok raw) parse = acceptFacts vals := by
    simp [extractAdds, hparse]
  have heq := extract_memory_guard_eq (Except.ok raw) parse emb m d st hg
  refine ⟨by rw [heq]; exact hadds, ?_, ?_⟩
  · intro f
    constructor
    · intro hf
      obtain ⟨v, hv, hvf⟩ := List.mem_filterMap.mp hf
      cases v with
      | str s =>
        have hvf' : (if s.length > 5 then some s else none) = some f := hvf
        by_cases hs : s.length > 5
        · rw [if_pos hs] at hvf'
          obtain rfl : s = f := by simpa using hvf'
          exact ⟨hv, by simpa using hs⟩
        · rw [if_neg hs] at hvf'
          exact absurd hvf' (by simp)
      | other =>
        have hvf' : (none : Option String) = some f := hvf
        exact absurd hvf' (by simp)
    · intro ⟨hv, hlen⟩
      exact List.mem_filterMap.mpr ⟨PyItem.str f, hv, by simp [hlen]⟩
  · rw [heq]
    simp only [hadds]
    exact addAll_docs emb (acceptFacts vals) m d

/-- Witness for C9: a mixed array — one long string, one short string,
one non-string — persists exactly the long string as one record. -/
theorem extraction_filter_witness :
    demoParse (processContent "MIXED") =
      Except.ok (PyVal.list
        [PyItem.str "user has a cat named Mochi", PyItem.str "hi", PyItem.other]) ∧
    (extract_memory (Except.ok "MIXED") demoParse demoEmb demoMem none stRound).adds =
      acceptFacts
        [PyItem.str "user has a cat named Mochi", PyItem.str "hi", PyItem.other] ∧
    docsOf (extract_memory (Except.ok "MIXED") demoParse demoEmb demoMem none
        stRound).mem =
      docsOf demoMem ++ (acceptFacts
        [PyItem.str "user has a cat named Mochi", PyItem.str "hi", PyItem.other]).map
          (fun f => (⟨⟨f, "", none, "conversation"⟩, demoEmb f⟩ : EmbDoc)) :=
  ⟨by decide,
   (extraction_filter demoParse demoEmb demoMem none stRound "MIXED"
      [PyItem.str "user has a cat named Mochi", PyItem.str "hi", PyItem.other]
      (by decide) (by decide)).1,
   (extraction_filter demoParse demoEmb demoMem none stRound "MIXED"
      [PyItem.str "user has a cat named Mochi", PyItem.str "hi", PyItem.other]
      (by decide) (by decide)).2.2⟩

/-- Counterexample to C1 as stated: with a populated store, a user
message, and an unavailable embedding backend, the retrieval node raises
instead of degrading to an empty list, and the whole turn aborts with the
error — no agent reply is produced. -/
theorem retrieval_failure_cex :
    retrieve_memories embFail 5 demoMem stHello = Except.error "embedding unavailable" ∧
    runTurn embFail 5 (Except.ok "hey") (Except.ok "[]") demoParse demoEmb 20
      "persona" [] demoMem none stHello = Except.error "embedding unavailable" := by
  exact ⟨by decide, by decide⟩

/-- Claim C1 (amended): retrieval degrades to an empty retrieved list
only when the store is uninitialized or when no (nonempty) user message
exists; an embedding/search failure during retrieval is not absorbed — it
propagates out of the node, the turn aborts with that error, and no agent
reply is produced. -/
theorem retrieval_failure_behavior (embF : String → Except String (List Int))
    (top_k : Nat) (mem : LongTermMemory) (st : AgentState) :
    (mem.vectorstore = none → retrieve_memories embF top_k mem st = Except.ok []) ∧
    (lastHumanOf st.messages = "" → retrieve_memories embF top_k mem st = Except.ok []) ∧
    (∀ (e : String) (vs : FAISS), mem.vectorstore = some vs →
      lastHumanOf st.messages ≠ "" →
      embF (lastHumanOf st.messages) = Except.error e →
      retrieve_memories embF top_k mem st = Except.error e ∧
      (∀ (genOut extOut : Except String String) (parse : String → Except String PyVal)
          (emb : String → List Int) (W : Nat) (sp : String) (fs : List Msg)
          (disk : Option FAISS),
        runTurn embF top_k genOut extOut parse emb W sp fs mem disk st =
          Except.error e)) := by
  refine ⟨?_, ?_, ?_⟩
  · intro h
    by_cases hlh : lastHumanOf st.messages = "" <;>
      simp [retrieve_memories, search, h, hlh]
  · intro h
    simp [retrieve_memories, h]
  · intro e vs hvs hlh hemb
    have hr : retrieve_memories embF top_k mem st = Except.error e := by
      simp [retrieve_memories, search, hvs, hlh, hemb]
    refine ⟨hr, ?_⟩
    intro genOut extOut parse emb W sp fs disk
    unfold runTurn
    rw [hr]

/-- Witness for C1 (amended): all three behaviors at concrete inputs. -/
theorem retrieval_failure_behavior_witness :
    retrieve_memories embFail 5 ⟨none⟩ stHello = Except.ok [] ∧
    retrieve_memories demoEmbF 5 demoMem ⟨[], [], false⟩ = Except.ok [] ∧
    retrieve_memories embFail 5 demoMem stHello = Except.error "embedding unavailable" ∧
    runTurn embFail 5 (Except.ok "hey") (Except.ok "[]") demoParse demoEmb 20
      "persona" [] demoMem none stHello = Except.error "embedding unavailable" :=
  ⟨(retrieval_failure_behavior embFail 5 ⟨none⟩ stHello).1 rfl,
   (retrieval_failure_behavior demoEmbF 5 demoMem ⟨[], [], false⟩).2.1 rfl,
   ((retrieval_failure_behavior embFail 5 demoMem stHello).2.2 "embedding unavailable"
      demoVS rfl (by decide) rfl).1,
   ((retrieval_failure_behavior embFail 5 demoMem stHello).2.2 "embedding unavailable"
      demoVS rfl (by decide) rfl).2 (Except.ok "hey") (Except.ok "[]") demoParse demoEmb
      20 "persona" [] none⟩
